import Mathlib

/-!
# Verification of the Inopsio multi-tenant auth/scoping core

Shallow embedding of the repository's authentication client
(`frontend/src/lib/api.ts`), edge middleware (`middleware.ts`) and the
tenant-scoped data layer, together with proofs of the spec's claims
about them.

Effects are made explicit: `Date.now()` becomes a `now` parameter,
`localStorage`/`document.cookie` become an explicit `ClientStorage`
value threaded through the functions, and an HTTP response is a plain
record of the fields the code reads.
-/

/-! ## JSON values and a JSON parser

`decodeToken` and `apiFetch` call `JSON.parse` / `response.json()`.
We embed JSON values as an inductive type and implement a fuel-based
recursive-descent parser.  Numbers are modelled as integers (token
`exp` fields and HTTP statuses are integral); fractional and exponent
number syntax is rejected by this model. -/

inductive Json where
  | null : Json
  | bool : Bool → Json
  | num : Int → Json
  | str : String → Json
  | arr : List Json → Json
  | obj : List (String × Json) → Json

namespace Json

/-- Field lookup on a JSON object (first binding wins, as in JS). -/
def lookup (j : Json) (key : String) : Option Json :=
  match j with
  | .obj fields =>
      match fields.find? (fun kv => kv.1 == key) with
      | some kv => some kv.2
      | none => none
  | _ => none

/-- JavaScript truthiness of a JSON value (`!payload` in the source):
`null`, `false`, `0` and `""` are falsy, everything else truthy. -/
def truthy : Json → Bool
  | .null => false
  | .bool b => b
  | .num n => n != 0
  | .str s => s != ""
  | .arr _ => true
  | .obj _ => true

end Json

/-- The `braceL`/`braceR` characters (codes 123 and 125). -/
def braceL : Char := Char.ofNat 123

/-- Closing brace character. -/
def braceR : Char := Char.ofNat 125

/-- Is `c` a JSON whitespace character? -/
def isJsonWs (c : Char) : Bool :=
  c == ' ' || c == '\t' || c == '\n' || c == '\r'

/-- Is `c` a hexadecimal digit? -/
def isHexDigitChar (c : Char) : Bool :=
  c.isDigit || ('a' ≤ c && c ≤ 'f') || ('A' ≤ c && c ≤ 'F')

/-- Value of a hexadecimal digit. -/
def hexVal (c : Char) : Nat :=
  if c.isDigit then c.toNat - '0'.toNat
  else if 'a' ≤ c && c ≤ 'f' then c.toNat - 'a'.toNat + 10
  else c.toNat - 'A'.toNat + 10

/-- Skip leading JSON whitespace. -/
def skipWs : List Char → List Char
  | [] => []
  | c :: rest => if isJsonWs c then skipWs rest else c :: rest

/-- Parse the body of a JSON string literal (after the opening quote),
returning the string and the remaining input.  Handles the standard
escapes; `\u` escapes take four hex digits. -/
def parseStringBody (fuel : Nat) (cs : List Char) (acc : List Char) :
    Option (String × List Char) :=
  match fuel, cs with
  | 0, _ => none
  | _, [] => none
  | fuel + 1, c :: rest =>
    if c == '"' then
      some (String.mk acc.reverse, rest)
    else if c == '\\' then
      match rest with
      | [] => none
      | e :: rest2 =>
        if e == '"' then parseStringBody fuel rest2 ('"' :: acc)
        else if e == '\\' then parseStringBody fuel rest2 ('\\' :: acc)
        else if e == '/' then parseStringBody fuel rest2 ('/' :: acc)
        else if e == 'b' then parseStringBody fuel rest2 (Char.ofNat 8 :: acc)
        else if e == 'f' then parseStringBody fuel rest2 (Char.ofNat 12 :: acc)
        else if e == 'n' then parseStringBody fuel rest2 ('\n' :: acc)
        else if e == 'r' then parseStringBody fuel rest2 ('\r' :: acc)
        else if e == 't' then parseStringBody fuel rest2 ('\t' :: acc)
        else if e == 'u' then
          match rest2 with
          | h1 :: h2 :: h3 :: h4 :: rest3 =>
            if isHexDigitChar h1 && isHexDigitChar h2 &&
                isHexDigitChar h3 && isHexDigitChar h4 then
              let n := hexVal h1 * 4096 + hexVal h2 * 256 + hexVal h3 * 16 + hexVal h4
              parseStringBody fuel rest3 (Char.ofNat n :: acc)
            else none
          | _ => none
        else none
    else
      parseStringBody fuel rest (c :: acc)

/-- Parse a run of decimal digits, returning the value and remainder. -/
def parseDigits : List Char → Option (Nat × List Char)
  | cs =>
    let digits := cs.takeWhile Char.isDigit
    if digits.isEmpty then none
    else
      let n := digits.foldl (fun acc c => acc * 10 + (c.toNat - '0'.toNat)) 0
      some (n, cs.dropWhile Char.isDigit)

mutual

/-- Parse one JSON value from the input (no leading-whitespace skip done
here; callers skip first). -/
def parseValue (fuel : Nat) (cs : List Char) : Option (Json × List Char) :=
  match fuel with
  | 0 => none
  | fuel + 1 =>
    match cs with
    | [] => none
    | c :: rest =>
      if c == '"' then
        match parseStringBody (rest.length + 1) rest [] with
        | some (s, rem) => some (.str s, rem)
        | none => none
      else if c == braceL then
        parseObjFields fuel (skipWs rest) [] true
      else if c == '[' then
        parseArrItems fuel (skipWs rest) [] true
      else if c == 't' then
        match cs with
        | 't' :: 'r' :: 'u' :: 'e' :: rem => some (.bool true, rem)
        | _ => none
      else if c == 'f' then
        match cs with
        | 'f' :: 'a' :: 'l' :: 's' :: 'e' :: rem => some (.bool false, rem)
        | _ => none
      else if c == 'n' then
        match cs with
        | 'n' :: 'u' :: 'l' :: 'l' :: rem => some (.null, rem)
        | _ => none
      else if c == '-' then
        match parseDigits rest with
        | some (n, rem) => some (.num (-(n : Int)), rem)
        | none => none
      else if c.isDigit then
        match parseDigits cs with
        | some (n, rem) => some (.num (n : Int), rem)
        | none => none
      else none

/-- Parse the fields of a JSON object after `{` (whitespace skipped).
`first` is true before the first field, so `}` closes an empty object. -/
def parseObjFields (fuel : Nat) (cs : List Char)
    (acc : List (String × Json)) (first : Bool) : Option (Json × List Char) :=
  match fuel with
  | 0 => none
  | fuel + 1 =>
    match cs with
    | [] => none
    | c :: rest =>
      if c == braceR && first then
        some (.obj acc.reverse, rest)
      else if c == '"' then
        match parseStringBody (rest.length + 1) rest [] with
        | none => none
        | some (key, rem) =>
          match skipWs rem with
          | ':' :: rem2 =>
            match parseValue fuel (skipWs rem2) with
            | none => none
            | some (v, rem3) =>
              match skipWs rem3 with
              | [] => none
              | d :: rem4 =>
                if d == ',' then parseObjFields fuel (skipWs rem4) ((key, v) :: acc) false
                else if d == braceR then some (.obj ((key, v) :: acc).reverse, rem4)
                else none
          | _ => none
      else none

/-- Parse the items of a JSON array after `[` (whitespace skipped). -/
def parseArrItems (fuel : Nat) (cs : List Char)
    (acc : List Json) (first : Bool) : Option (Json × List Char) :=
  match fuel with
  | 0 => none
  | fuel + 1 =>
    match cs with
    | [] => none
    | c :: rest =>
      if c == ']' && first then
        some (.arr acc.reverse, rest)
      else
        match parseValue fuel cs with
        | none => none
        | some (v, rem) =>
          match skipWs rem with
          | ',' :: rem2 => parseArrItems fuel (skipWs rem2) (v :: acc) false
          | ']' :: rem2 => some (.arr (v :: acc).reverse, rem2)
          | _ => none

end

/-- `JSON.parse`: parse a complete JSON document; trailing
non-whitespace makes the parse fail (throw, modelled as `none`). -/
def jsonParse (s : String) : Option Json :=
  let cs := skipWs s.toList
  match parseValue (cs.length + 1) cs with
  | some (v, rem) => if (skipWs rem).isEmpty then some v else none
  | none => none

/-! ## `atob`: base64 decoding

`decodeToken` calls the platform `atob`.  Per the WHATWG
forgiving-base64 spec, ASCII whitespace is stripped, up to two trailing
`=` padding characters are allowed, a remaining length congruent to
1 mod 4 or any character outside the base64 alphabet throws
(modelled as `none`).  The result is a binary string of the decoded
bytes. -/

/-- Value of a base64 alphabet character, `none` outside the alphabet. -/
def base64Val (c : Char) : Option Nat :=
  if 'A' ≤ c && c ≤ 'Z' then some (c.toNat - 'A'.toNat)
  else if 'a' ≤ c && c ≤ 'z' then some (c.toNat - 'a'.toNat + 26)
  else if '0' ≤ c && c ≤ '9' then some (c.toNat - '0'.toNat + 52)
  else if c == '+' then some 62
  else if c == '/' then some 63
  else none

/-- Decode a whitespace- and padding-free base64 character list to
bytes, four characters at a time. -/
def base64DecodeChars : List Char → Option (List Nat)
  | [] => some []
  | [_] => none
  | [a, b] => do
    let va ← base64Val a
    let vb ← base64Val b
    pure [va * 4 + vb / 16]
  | [a, b, c] => do
    let va ← base64Val a
    let vb ← base64Val b
    let vc ← base64Val c
    pure [va * 4 + vb / 16, (vb % 16) * 16 + vc / 4]
  | a :: b :: c :: d :: rest => do
    let va ← base64Val a
    let vb ← base64Val b
    let vc ← base64Val c
    let vd ← base64Val d
    let tail ← base64DecodeChars rest
    pure ([va * 4 + vb / 16, (vb % 16) * 16 + vc / 4, (vc % 4) * 64 + vd] ++ tail)

/-- Strip at most two trailing `=` characters. -/
def stripBase64Padding (cs : List Char) : List Char :=
  match cs.reverse with
  | '=' :: '=' :: rest => rest.reverse
  | '=' :: rest => rest.reverse
  | _ => cs

/-- The platform `atob`. -/
def atob (s : String) : Option String := do
  let cs := s.toList.filter (fun c => !isJsonWs c && c != '\x0c')
  let bytes ← base64DecodeChars (stripBase64Padding cs)
  pure (String.mk (bytes.map Char.ofNat))

/-! ## JavaScript string coercion

`String(v)` as used implicitly by `Error(message)` and
`localStorage.setItem`.  Arrays are not modelled precisely (JS joins
the element strings with commas); no embedded code path reaches that
case with an array. -/

/-- JS `String(v)` coercion of a JSON value. -/
def jsToString : Json → String
  | .null => "null"
  | .bool b => if b then "true" else "false"
  | .num n => toString n
  | .str s => s
  | .arr _ => ""
  | .obj _ => "[object Object]"

namespace ApiClient

/-!
Embedding of `frontend/src/lib/api.ts` and the auth service that
follows it in the same module.  Browser state (`localStorage`,
`document.cookie`) is threaded explicitly as a `ClientStorage` value;
`Date.now()` becomes a `now : Int` parameter (milliseconds); an HTTP
response is a record of the fields the code reads.
-/

/-- Token storage key — `const TOKEN_KEY = "inopsio_token"` in
`lib/api.ts`. -/
def TOKEN_KEY : String := "inopsio_token"

/-- A `document.cookie = "name=value; path=/; max-age=...; SameSite=..."`
assignment, structurally. -/
structure SetCookie where
  name : String
  value : String
  path : String
  maxAge : Nat
  sameSite : String
deriving Repr, DecidableEq

/-- The browser-side state the client reads and writes: the
`localStorage` key-value pairs and the last cookie assignment. -/
structure ClientStorage where
  localStore : List (String × String)
  cookie : Option SetCookie
deriving Repr, DecidableEq

/-- `localStorage.setItem`: overwrite the binding if the key exists,
append it otherwise. -/
def localStorageSetItem (st : List (String × String)) (key value : String) :
    List (String × String) :=
  if st.any (fun kv => kv.1 == key) then
    st.map (fun kv => if kv.1 == key then (key, value) else kv)
  else st ++ [(key, value)]

/-- `localStorage.getItem`. -/
def localStorageGetItem (st : List (String × String)) (key : String) :
    Option String :=
  (st.find? (fun kv => kv.1 == key)).map (fun kv => kv.2)

/-- `getToken` (`lib/api.ts` lines 14–17): read the stored token from
`localStorage` under `TOKEN_KEY`. -/
def getToken (st : ClientStorage) : Option String :=
  localStorageGetItem st.localStore TOKEN_KEY

/-- `setToken` (`lib/api.ts` lines 22–27): store the token in
`localStorage` under `TOKEN_KEY` and mirror it into a cookie of the
same name with `path=/`, `max-age=60*60*24*7` and `SameSite=Lax`. -/
def setToken (token : String) (st : ClientStorage) : ClientStorage :=
  { localStore := localStorageSetItem st.localStore TOKEN_KEY token,
    cookie := some { name := TOKEN_KEY, value := token, path := "/",
                     maxAge := 60 * 60 * 24 * 7, sameSite := "Lax" } }

/-- The fields of an HTTP response that the client reads.  `body` is
the result of `response.json()`: `none` when the body is not valid
JSON (the promise rejects). -/
structure HttpResponse where
  ok : Bool
  status : Nat
  body : Option Json
  requestIdHeader : Option String

/-- Outcome of `apiFetch`: the resolved value, a thrown `ApiError`
(message, status, raw `detail` field, request id), or a non-`ApiError`
exception from `response.json()` rejecting on an ok response. -/
inductive ApiResult where
  | success (body : Json)
  | apiError (message : String) (status : Nat) (detail : Option Json) (requestId : String)
  | jsonRejected

/-- `response.headers.get("X-Request-ID") || requestId`
(`lib/api.ts` line 77): the response header when truthy, otherwise the
UUID the client generated. -/
def responseRequestId (resp : HttpResponse) (requestId : String) : String :=
  match resp.requestIdHeader with
  | some h => if h != "" then h else requestId
  | none => requestId

/-- `errorData.detail` where
`errorData = await response.json().catch(() => (empty object))`
(`lib/api.ts` line 80): the raw `detail` field of the error body. -/
def apiErrorDetail (resp : HttpResponse) : Option Json :=
  (resp.body.getD (Json.obj [])).lookup "detail"

/-- The thrown `ApiError`'s message (`lib/api.ts` line 82):
`errorData.detail || "Request failed with status <status>"` — the
`detail` field when truthy, otherwise the fallback. -/
def apiErrorMessage (resp : HttpResponse) : String :=
  let fallback := "Request failed with status " ++ toString resp.status
  match apiErrorDetail resp with
  | some v => if v.truthy then jsToString v else fallback
  | none => fallback

/-- `apiFetch` response handling (`lib/api.ts` lines 77–95).
`requestId` is the UUID the client generated for the request.  On a
non-ok response an `ApiError` is thrown carrying `apiErrorMessage`,
the status, the raw `detail` field and the request id.  On ok, a 204
returns the empty object without touching the body; otherwise the
parsed body is returned (a non-JSON body rejects with a plain
`SyntaxError`, not an `ApiError`). -/
def apiFetch (resp : HttpResponse) (requestId : String) : ApiResult :=
  if !resp.ok then
    .apiError (apiErrorMessage resp) resp.status (apiErrorDetail resp)
      (responseRequestId resp requestId)
  else if resp.status == 204 then
    .success (Json.obj [])
  else
    match resp.body with
    | some data => .success data
    | none => .jsonRejected

/-- `const API_PREFIX = "/api/v1"` in the auth service. -/
def API_PREFIX : String := "/api/v1"

/-- The request `login` sends, structurally: URL, method, content type
and the `URLSearchParams` form fields. -/
structure LoginRequest where
  url : String
  method : String
  contentType : String
  formFields : List (String × String)
deriving Repr, DecidableEq

/-- The request side of `login` (auth service lines 124–140): a POST
of `username`/`password` as form-urlencoded fields — explicitly not
JSON — to `<apiUrl>/api/v1/auth/login`. -/
def loginRequest (apiUrl email password : String) : LoginRequest :=
  { url := apiUrl ++ API_PREFIX ++ "/auth/login",
    method := "POST",
    contentType := "application/x-www-form-urlencoded",
    formFields := [("username", email), ("password", password)] }

/-- Outcome of `login`'s response handling: success carries the parsed
`AuthResponse` body and the updated browser storage after
`setToken(data.access_token)`. -/
inductive LoginResult where
  | ok (data : Json) (st : ClientStorage)
  | loginError (message : String)
  | jsonRejected

/-- The response side of `login` (auth service lines 142–149): non-ok
throws `Error(error.detail || "Login failed")`; ok parses the body,
stores `data.access_token` via `setToken` (a missing or non-string
field goes through the JS `String` coercion that `localStorage`
applies) and returns the body. -/
def login (resp : HttpResponse) (st : ClientStorage) : LoginResult :=
  if !resp.ok then
    let err := resp.body.getD (Json.obj [])
    .loginError
      (match err.lookup "detail" with
       | some v => if v.truthy then jsToString v else "Login failed"
       | none => "Login failed")
  else
    match resp.body with
    | none => .jsonRejected
    | some data =>
      let tok :=
        match data.lookup "access_token" with
        | some v => jsToString v
        | none => "undefined"
      .ok data (setToken tok st)

/-- `token.split(".")`, over character lists. -/
def splitOnDots : List Char → List (List Char)
  | [] => [[]]
  | c :: rest =>
    if c == '.' then [] :: splitOnDots rest
    else
      match splitOnDots rest with
      | [] => [[c]]
      | seg :: segs => (c :: seg) :: segs

/-- `decodeToken` (auth service lines 179–187): take the second
dot-separated segment of the token, `atob` it, `JSON.parse` the
result; any failure along the way (including a missing second segment,
where `atob(undefined)` throws on the 9-character string
`"undefined"`) is caught and returns `null`. -/
def decodeToken (token : String) : Option Json :=
  match (splitOnDots token.toList).get? 1 with
  | none => none
  | some seg => (atob (String.mk seg)).bind jsonParse

/-- `isTokenExpired` (auth service lines 192–197):
`Date.now() >= payload.exp * 1000 - 60000`, with a `null` (or falsy)
payload reported as expired.  A payload whose `exp` field is absent or
not a number makes `payload.exp * 1000` `NaN` in JS, and `NaN`
comparisons are false, so the token is reported NOT expired; JS
numeric coercion of non-number `exp` values is not modelled beyond
that branch. -/
def isTokenExpired (now : Int) (token : String) : Bool :=
  match decodeToken token with
  | none => true
  | some payload =>
    if !payload.truthy then true
    else
      match payload.lookup "exp" with
      | some (.num exp) => decide (now ≥ exp * 1000 - 60000)
      | _ => false

end ApiClient

namespace Middleware

/-!
Embedding of the Next.js edge middleware (`middleware.ts`, the
"EdgeGuard" of the spec).  The function reads only the request's
`pathname` and the `inopsio_token` cookie value, and returns either a
redirect or a passthrough.  `new URL(path, request.url)` plus
`searchParams.set("callbackUrl", pathname)` is modelled structurally
as the redirect's path together with the optional `callbackUrl`
parameter value (the host of `request.url` is preserved and the query
serialization adds nothing). -/

/-- Token cookie name — `const TOKEN_KEY = "inopsio_token"` in
`middleware.ts` ("must match lib/api.ts"). -/
def TOKEN_KEY : String := "inopsio_token"

/-- `const PROTECTED_PATTERNS = ["/dashboard", "/admin"]`. -/
def PROTECTED_PATTERNS : List String := ["/dashboard", "/admin"]

/-- `const AUTH_ROUTES = ["/signin", "/signup", "/login"]`. -/
def AUTH_ROUTES : List String := ["/signin", "/signup", "/login"]

/-- Does `needle` occur as a contiguous run inside `hay`? -/
def containsChars (hay needle : List Char) : Bool :=
  match hay with
  | [] => needle.isEmpty
  | _ :: t => needle.isPrefixOf hay || containsChars t needle

/-- `String.prototype.includes`: substring containment. -/
def includes (s pattern : String) : Bool :=
  containsChars s.toList pattern.toList

/-- Is `c` in the character class `[a-z]`? -/
def isLowerAZ (c : Char) : Bool :=
  'a' ≤ c && c ≤ 'z'

/-- The locale extraction (`middleware.ts` lines 22–24): the regex
match for a leading `/xy/` where both `x` and `y` are lowercase ASCII
letters; `"en"` when the regex does not match. -/
def extractLocale (pathname : String) : String :=
  match pathname.toList with
  | '/' :: a :: b :: '/' :: _ =>
    if isLowerAZ a && isLowerAZ b then String.mk [a, b] else "en"
  | _ => "en"

/-- The middleware's decision: a redirect (path plus optional
`callbackUrl` query parameter) or `NextResponse.next()`. -/
inductive MiddlewareResult where
  | redirect (path : String) (callbackUrl : Option String)
  | next
deriving Repr, DecidableEq

/-- JS truthiness of the cookie value `token`
(`request.cookies.get(TOKEN_KEY)?.value`): a credential counts as
present when the cookie exists with a non-empty value. -/
def tokenPresent (cookieToken : Option String) : Bool :=
  match cookieToken with
  | some s => s != ""
  | none => false

/-- `isProtectedRoute` (`middleware.ts` lines 27–29):
`PROTECTED_PATTERNS.some((pattern) => pathname.includes(pattern))` —
substring containment, not a leading-segment match. -/
def isProtectedRoute (pathname : String) : Bool :=
  PROTECTED_PATTERNS.any (fun pattern => includes pathname pattern)

/-- `isAuthRoute` (`middleware.ts` line 32):
`AUTH_ROUTES.some((route) => pathname.includes(route))`. -/
def isAuthRoute (pathname : String) : Bool :=
  AUTH_ROUTES.any (fun route => includes pathname route)

/-- `middleware` (`middleware.ts` lines 18–48).  `cookieToken` is
`request.cookies.get(TOKEN_KEY)?.value`; its JS truthiness (present
and non-empty) is what the two `if`s test. -/
def middleware (pathname : String) (cookieToken : Option String) :
    MiddlewareResult :=
  if isProtectedRoute pathname && !tokenPresent cookieToken then
    .redirect ("/" ++ extractLocale pathname ++ "/signin") (some pathname)
  else if isAuthRoute pathname && tokenPresent cookieToken then
    .redirect ("/" ++ extractLocale pathname ++ "/dashboard") none
  else
    .next

end Middleware

namespace TenantScopedStore

/-!
The TenantScopedStore component.  Its implementation slot in the
repository, `backend/app/crud/base.py` (`CRUDBase`), is one of the
intentionally empty "reserved" files — only documentation in the
repository (CONTRIBUTING, `docs/backend/standards.md`) describes it.
The definitions below are therefore modelled from the spec (§4.4) and
settled against that model. -/

/-- A persisted tenant-owned record: an id, exactly one organization
id, and an opaque payload. -/
structure Entity where
  id : String
  organizationId : String
  payload : String
deriving Repr, DecidableEq

/-- Paginated list response shape: items, total, echoed skip/limit. -/
structure Paginated (α : Type) where
  items : List α
  total : Nat
  skip : Nat
  limit : Nat

/-- Typed store failures.  `forbidden` is included so that "never a
distinguishing Forbidden" is expressible; the spec's taxonomy reserves
it for capability failures, not for store reads. -/
inductive StoreError where
  | notFound
  | forbidden
deriving Repr, DecidableEq

/-- Modelled from the spec: `TenantScopedStore.list` (§4.4; the
implementation slot `app/crud/base.py` is empty in the source).  "On
read/list, the organization id is ANDed into the query as a
non-overridable filter; caller-supplied filters compose with, never
replace, this constraint.  `list` returns items plus a total count
computed under the same scoped filter, alongside the echoed
skip/limit." -/
def list (db : List Entity) (organizationId : String)
    (filter : Entity → Bool) (skip limit : Nat) : Paginated Entity :=
  let scopedRows := db.filter (fun e => e.organizationId == organizationId && filter e)
  { items := (scopedRows.drop skip).take limit,
    total := scopedRows.length,
    skip := skip,
    limit := limit }

/-- Modelled from the spec: `TenantScopedStore.get` (§4.4; the
implementation slot `app/crud/base.py` is empty in the source).  The
lookup is performed under the organization constraint, so "requesting
an id that exists but belongs to a different organization returns
`NotFound`, identical to a genuinely absent id — never a
distinguishing `Forbidden`." -/
def get (db : List Entity) (organizationId id : String) :
    Except StoreError Entity :=
  match db.find? (fun e => e.organizationId == organizationId && e.id == id) with
  | some e => .ok e
  | none => .error .notFound

end TenantScopedStore

namespace Middleware

/-- Claim-side definition, following the claim's words: "the request's
leading locale segment (a leading two-letter segment of the path)" —
the first path segment when it consists of exactly two letters. -/
def specLeadingTwoLetterSegment (pathname : String) : Option String :=
  match pathname.toList with
  | '/' :: a :: b :: '/' :: _ =>
    if a.isAlpha && b.isAlpha then some (String.mk [a, b]) else none
  | _ => none

/-- Amended-claim-side definition: the leading locale segment counts
only when it is two lowercase ASCII letters followed by `/`. -/
def specLowercaseLocaleSegment (pathname : String) : Option String :=
  match pathname.toList with
  | '/' :: a :: b :: '/' :: _ =>
    if isLowerAZ a && isLowerAZ b then some (String.mk [a, b]) else none
  | _ => none

/-- Amended-claim-side locale choice: the lowercase two-letter leading
segment when present, the default locale `"en"` otherwise. -/
def specLocaleOf (pathname : String) : String :=
  (specLowercaseLocaleSegment pathname).getD "en"

end Middleware

/-! ## Helper lemmas -/

theorem TenantScopedStore.get_never_forbidden
    (db : List TenantScopedStore.Entity) (o i : String) :
    TenantScopedStore.get db o i ≠ .error .forbidden := by
  unfold TenantScopedStore.get
  cases h : db.find? (fun e => e.organizationId == o && e.id == i) <;> simp

theorem TenantScopedStore.get_cross
    (db : List TenantScopedStore.Entity) (A B i : String) (hAB : A ≠ B)
    (hB : ∀ e ∈ db, e.id = i → e.organizationId = B) :
    TenantScopedStore.get db A i = .error .notFound := by
  unfold TenantScopedStore.get
  have hnone : db.find? (fun e => e.organizationId == A && e.id == i) = none := by
    rw [List.find?_eq_none]
    intro e he
    simp only [Bool.and_eq_true, beq_iff_eq, not_and]
    intro horg hid
    exact hAB (horg ▸ (hB e he hid) ▸ rfl)
  rw [hnone]

theorem TenantScopedStore.get_absent
    (db : List TenantScopedStore.Entity) (A i : String)
    (h : ∀ e ∈ db, e.id ≠ i) :
    TenantScopedStore.get db A i = .error .notFound := by
  unfold TenantScopedStore.get
  have hnone : db.find? (fun e => e.organizationId == A && e.id == i) = none := by
    rw [List.find?_eq_none]
    intro e he
    simp only [Bool.and_eq_true, beq_iff_eq, not_and]
    intro _ hid
    exact absurd hid (h e he)
  rw [hnone]

theorem ApiClient.find_map_set (k v : String) (st : List (String × String))
    (h : st.any (fun kv => kv.1 == k) = true) :
    List.find? (fun kv => kv.1 == k)
      (st.map (fun kv => if kv.1 == k then (k, v) else kv)) = some (k, v) := by
  induction st with
  | nil => simp at h
  | cons hd tl ih =>
    by_cases hh : (hd.1 == k) = true
    · simp only [List.map_cons, hh, if_true]
      rw [List.find?_cons_of_pos]
      simp
    · simp only [List.map_cons, hh, if_false]
      rw [List.find?_cons_of_neg]
      · apply ih
        simp only [List.any_cons, hh, Bool.false_or] at h
        exact h
      · simpa using hh

theorem ApiClient.getItem_setItem (st : List (String × String)) (k v : String) :
    ApiClient.localStorageGetItem (ApiClient.localStorageSetItem st k v) k = some v := by
  unfold ApiClient.localStorageGetItem ApiClient.localStorageSetItem
  by_cases h : st.any (fun kv => kv.1 == k) = true
  · simp only [h, if_true]
    rw [ApiClient.find_map_set k v st h]
    rfl
  · have h' : st.any (fun kv => kv.1 == k) = false := by
      cases hb : st.any (fun kv => kv.1 == k)
      · rfl
      · exact absurd hb h
    have hnone : st.find? (fun kv => kv.1 == k) = none := by
      rw [List.find?_eq_none]
      intro kv hkv hk
      exact absurd (List.any_eq_true.mpr ⟨kv, hkv, hk⟩) h
    rw [h']
    simp only [Bool.false_eq_true, if_false]
    rw [List.find?_append, hnone]
    simp [List.find?]

/-! ## Claims -/

/-- C2: `TenantScopedStore.list` scoped to organization A returns only
rows whose organization id is A — never a row of a distinct
organization B — for every caller-supplied filter; the caller's filter
composes with (every returned row also satisfies it) and never
replaces the organization constraint. -/
theorem TenantScopedStore.list_scoped_to_org
    (db : List TenantScopedStore.Entity) (A : String)
    (filter : TenantScopedStore.Entity → Bool) (skip limit : Nat)
    (e : TenantScopedStore.Entity)
    (h : e ∈ (TenantScopedStore.list db A filter skip limit).items) :
    e.organizationId = A ∧ filter e = true ∧
      ∀ B : String, B ≠ A → e.organizationId ≠ B := by
  unfold TenantScopedStore.list at h
  simp only at h
  have h1 := List.mem_of_mem_take h
  have h2 := List.mem_of_mem_drop h1
  have h3 := (List.mem_filter.mp h2).2
  simp only [Bool.and_eq_true, beq_iff_eq] at h3
  exact ⟨h3.1, h3.2, fun B hBA hEB => hBA (hEB ▸ h3.1)⟩

/-- C2 witness: in a store holding one row of `orgA` and one of
`orgB`, the `orgA` row is in the items of a `list` scoped to `orgA`
with a trivial caller filter, and the theorem yields its organization
id. -/
theorem TenantScopedStore.list_scoped_to_org_witness :
    (⟨"r1", "orgA", "x"⟩ : TenantScopedStore.Entity) ∈
      (TenantScopedStore.list
        [⟨"r1", "orgA", "x"⟩, ⟨"r2", "orgB", "y"⟩] "orgA"
        (fun _ => true) 0 10).items ∧
    (⟨"r1", "orgA", "x"⟩ : TenantScopedStore.Entity).organizationId = "orgA" ∧
    ("orgA" : String) ≠ "orgB" := by
  have hmem : (⟨"r1", "orgA", "x"⟩ : TenantScopedStore.Entity) ∈
      (TenantScopedStore.list
        [⟨"r1", "orgA", "x"⟩, ⟨"r2", "orgB", "y"⟩] "orgA"
        (fun _ => true) 0 10).items := by decide
  exact ⟨hmem,
    (TenantScopedStore.list_scoped_to_org _ _ _ _ _ _ hmem).1,
    by decide⟩

/-- C3: a `get` with scope organization A for an id owned by a
different organization B returns `NotFound`, the same result as a
`get` for an id that exists in no organization, and no `get` ever
produces the distinct `Forbidden` signal. -/
theorem TenantScopedStore.get_cross_tenant_notFound
    (db : List TenantScopedStore.Entity) (A B recordId freshId : String)
    (hAB : A ≠ B)
    (hOwned : ∀ e ∈ db, e.id = recordId → e.organizationId = B)
    (hFresh : ∀ e ∈ db, e.id ≠ freshId) :
    TenantScopedStore.get db A recordId = .error .notFound ∧
    TenantScopedStore.get db A recordId = TenantScopedStore.get db A freshId ∧
    ∀ (db2 : List TenantScopedStore.Entity) (o i : String),
      TenantScopedStore.get db2 o i ≠ .error .forbidden := by
  have h1 := TenantScopedStore.get_cross db A B recordId hAB hOwned
  have h2 := TenantScopedStore.get_absent db A freshId hFresh
  exact ⟨h1, h1.trans h2.symm, TenantScopedStore.get_never_forbidden⟩

/-- C3 witness: with rows `r1` in `orgA` and `r2` in `orgB`, a `get`
scoped to `orgA` for `r2` (owned by `orgB`) returns `NotFound`,
identically to a `get` for the absent id `zzz`. -/
theorem TenantScopedStore.get_cross_tenant_notFound_witness :
    TenantScopedStore.get
      [⟨"r1", "orgA", "x"⟩, ⟨"r2", "orgB", "y"⟩] "orgA" "r2" =
      .error .notFound ∧
    TenantScopedStore.get
      [⟨"r1", "orgA", "x"⟩, ⟨"r2", "orgB", "y"⟩] "orgA" "r2" =
    TenantScopedStore.get
      [⟨"r1", "orgA", "x"⟩, ⟨"r2", "orgB", "y"⟩] "orgA" "zzz" := by
  have h := TenantScopedStore.get_cross_tenant_notFound
    [⟨"r1", "orgA", "x"⟩, ⟨"r2", "orgB", "y"⟩] "orgA" "orgB" "r2" "zzz"
    (by decide) (by decide) (by decide)
  exact ⟨h.1, h.2.1⟩

/-- C1 counterexample: the claim says the expiry check accepts the
token at every instant strictly before `exp` plus the 60-second
leeway.  For a token whose payload carries `exp = 1000` (seconds), the
instant 999000 ms is strictly before `(exp + 60) * 1000 = 1060000` ms
— it is even before the nominal expiry — yet `isTokenExpired` reports
the token expired: the code computes
`now >= exp * 1000 - 60000`, so the leeway shortens validity. -/
theorem ApiClient.tokenExpiry_leeway_shortens_counterexample :
    ApiClient.decodeToken "h.eyJzdWIiOiJ1MSIsImV4cCI6MTAwMH0.s" =
      some (Json.obj [("sub", .str "u1"), ("exp", .num 1000)]) ∧
    (999000 : Int) < (1000 + 60) * 1000 ∧
    ApiClient.isTokenExpired 999000 "h.eyJzdWIiOiJ1MSIsImV4cCI6MTAwMH0.s" = true :=
  ⟨rfl, by norm_num, rfl⟩

/-- C1 (amended): for every token whose payload carries expiry
timestamp `exp` (seconds), the expiry check reports the token expired
exactly at the instants `now` (milliseconds) with
`exp * 1000 - 60000 ≤ now` — i.e. from 60 seconds BEFORE the nominal
expiry onward.  The 60-second leeway shortens the accepted window; it
never extends validity past the nominal expiry. -/
theorem ApiClient.isTokenExpired_iff_past_exp_minus_leeway
    (token : String) (fields : List (String × Json)) (e now : Int)
    (hdec : ApiClient.decodeToken token = some (Json.obj fields))
    (hexp : (Json.obj fields).lookup "exp" = some (.num e)) :
    ApiClient.isTokenExpired now token = true ↔ e * 1000 - 60000 ≤ now := by
  unfold ApiClient.isTokenExpired
  rw [hdec]
  simp only [Json.truthy, Bool.not_true, if_false]
  rw [hexp]
  simp [ge_iff_le]

/-- C1 witness: the amended theorem applied to a concrete token with
`exp = 1000` at `now = 940000 = exp * 1000 - 60000`. -/
theorem ApiClient.isTokenExpired_iff_witness :
    ApiClient.isTokenExpired 940000 "h.eyJzdWIiOiJ1MSIsImV4cCI6MTAwMH0.s" = true :=
  (ApiClient.isTokenExpired_iff_past_exp_minus_leeway
    "h.eyJzdWIiOiJ1MSIsImV4cCI6MTAwMH0.s"
    [("sub", .str "u1"), ("exp", .num 1000)] 1000 940000 rfl rfl).mpr (by norm_num)

/-- C8: `setToken t` stores `t` in `localStorage` under the key
`"inopsio_token"` and mirrors it into a cookie of the same name with
`SameSite=Lax`, path `/` and a 7-day lifetime
(`max-age = 604800` seconds); the cookie name is exactly the one the
edge middleware reads. -/
theorem ApiClient.setToken_storage_and_cookie
    (t : String) (st : ApiClient.ClientStorage) :
    ApiClient.getToken (ApiClient.setToken t st) = some t ∧
    (ApiClient.setToken t st).cookie =
      some { name := ApiClient.TOKEN_KEY, value := t, path := "/",
             maxAge := 604800, sameSite := "Lax" } ∧
    ApiClient.TOKEN_KEY = "inopsio_token" ∧
    ApiClient.TOKEN_KEY = Middleware.TOKEN_KEY :=
  ⟨ApiClient.getItem_setItem st.localStore _ t, rfl, rfl, rfl⟩

/-- C9: for every string whose second dot-separated segment does not
decode as base64-encoded JSON — vacuously including strings with no
dot at all, where `atob` is applied to the 9-character string
`"undefined"` and throws — `decodeToken` returns `null` rather than
throwing, and `isTokenExpired` reports the token expired at every
instant: a malformed token is never treated as valid. -/
theorem ApiClient.malformed_token_treated_expired
    (token : String)
    (h : ∀ seg : List Char,
      (ApiClient.splitOnDots token.toList).get? 1 = some seg →
      (atob (String.mk seg)).bind jsonParse = none) :
    ApiClient.decodeToken token = none ∧
    ∀ now : Int, ApiClient.isTokenExpired now token = true := by
  have hd : ApiClient.decodeToken token = none := by
    unfold ApiClient.decodeToken
    cases hseg : (ApiClient.splitOnDots token.toList).get? 1 with
    | none => rfl
    | some seg => exact h seg hseg
  refine ⟨hd, fun now => ?_⟩
  unfold ApiClient.isTokenExpired
  rw [hd]

/-- C9 witness: the dot-free string `"abc"` decodes to `null` and is
reported expired. -/
theorem ApiClient.malformed_token_treated_expired_witness :
    ApiClient.decodeToken "abc" = none ∧
    ApiClient.isTokenExpired 0 "abc" = true := by
  have h := ApiClient.malformed_token_treated_expired "abc" (fun seg hseg => by
    rw [show (ApiClient.splitOnDots "abc".toList).get? 1 = none from rfl] at hseg
    exact Option.noConfusion hseg)
  exact ⟨h.1, h.2 0⟩

/-- Helper: the code's locale extraction agrees everywhere with the
amended-claim-side locale choice (lowercase two-letter leading
segment, default `"en"`). -/
theorem Middleware.extractLocale_eq_specLocaleOf (pathname : String) :
    Middleware.extractLocale pathname = Middleware.specLocaleOf pathname := by
  unfold Middleware.extractLocale Middleware.specLocaleOf
    Middleware.specLowercaseLocaleSegment
  generalize pathname.toList = cs
  split
  · split <;> simp_all
  · rfl

/-- C4: the middleware decides in priority order — a protected path
with no (truthy) credential redirects to the locale-prefixed signin
path with `callbackUrl` set to the original path; otherwise an
auth-entry path with a credential redirects to the locale-prefixed
dashboard; otherwise the request continues.  Concretely,
`/en/dashboard` with no credential redirects to
`/en/signin?callbackUrl=/en/dashboard`, `/en/signin` with a credential
redirects to `/en/dashboard`, and `/en/dashboard` with a credential
passes through. -/
theorem Middleware.middleware_decision_rule :
    (∀ (pathname : String) (cookieToken : Option String),
      (Middleware.isProtectedRoute pathname = true →
        Middleware.tokenPresent cookieToken = false →
        Middleware.middleware pathname cookieToken =
          .redirect ("/" ++ Middleware.extractLocale pathname ++ "/signin")
            (some pathname)) ∧
      ((Middleware.isProtectedRoute pathname = false ∨
          Middleware.tokenPresent cookieToken = true) →
        Middleware.isAuthRoute pathname = true →
        Middleware.tokenPresent cookieToken = true →
        Middleware.middleware pathname cookieToken =
          .redirect ("/" ++ Middleware.extractLocale pathname ++ "/dashboard") none) ∧
      ((Middleware.isProtectedRoute pathname = false ∨
          Middleware.tokenPresent cookieToken = true) →
        (Middleware.isAuthRoute pathname = false ∨
          Middleware.tokenPresent cookieToken = false) →
        Middleware.middleware pathname cookieToken = .next)) ∧
    Middleware.middleware "/en/dashboard" none =
      .redirect "/en/signin" (some "/en/dashboard") ∧
    Middleware.middleware "/en/signin" (some "tok") =
      .redirect "/en/dashboard" none ∧
    Middleware.middleware "/en/dashboard" (some "tok") = .next := by
  refine ⟨?_, by decide, by decide, by decide⟩
  intro pathname cookieToken
  refine ⟨fun hP hT => ?_, fun h1 hA hT => ?_, fun h1 h2 => ?_⟩
  · simp [Middleware.middleware, hP, hT]
  · rcases h1 with hP | hT'
    · simp [Middleware.middleware, hP, hA, hT]
    · simp [Middleware.middleware, hA, hT]
  · rcases h1 with hP | hT <;> rcases h2 with hA | hT' <;>
      simp_all [Middleware.middleware]

/-- C4 witness: the first decision clause applied to the protected
path `/fr/admin/settings` with no credential. -/
theorem Middleware.middleware_decision_rule_witness :
    Middleware.middleware "/fr/admin/settings" none =
      .redirect ("/" ++ Middleware.extractLocale "/fr/admin/settings" ++ "/signin")
        (some "/fr/admin/settings") :=
  (Middleware.middleware_decision_rule.1 "/fr/admin/settings" none).1
    (by decide) rfl

/-- C5 counterexample: `/EN/dashboard` has a leading two-letter
segment (`EN`), but the middleware's locale regex matches only
lowercase `[a-z]`, so the redirect goes to the default-locale
`/en/signin` instead of preserving `EN`. -/
theorem Middleware.locale_uppercase_counterexample :
    Middleware.specLeadingTwoLetterSegment "/EN/dashboard" = some "EN" ∧
    Middleware.middleware "/EN/dashboard" none =
      .redirect "/en/signin" (some "/EN/dashboard") ∧
    ("/en/signin" : String) ≠ "/EN/signin" :=
  ⟨rfl, by decide, by decide⟩

/-- C5 (amended): on every redirect the middleware issues, the target
path carries the locale computed as: the request's leading locale
segment when it consists of two LOWERCASE ASCII letters followed by
`/`, and the default locale `"en"` otherwise (in particular for
uppercase two-letter segments and for paths with no locale segment);
a protected path with no locale segment and no credential redirects
to `/en/signin` with `callbackUrl` equal to the original path. -/
theorem Middleware.redirect_locale_preservation :
    (∀ pathname : String,
      Middleware.extractLocale pathname = Middleware.specLocaleOf pathname) ∧
    (∀ (pathname : String) (cookieToken : Option String)
        (path : String) (cb : Option String),
      Middleware.middleware pathname cookieToken = .redirect path cb →
      path = "/" ++ Middleware.specLocaleOf pathname ++ "/signin" ∨
      path = "/" ++ Middleware.specLocaleOf pathname ++ "/dashboard") ∧
    Middleware.middleware "/dashboard" none =
      .redirect "/en/signin" (some "/dashboard") := by
  refine ⟨Middleware.extractLocale_eq_specLocaleOf, ?_, by decide⟩
  intro pathname cookieToken path cb h
  rw [← Middleware.extractLocale_eq_specLocaleOf]
  unfold Middleware.middleware at h
  split at h
  · left
    injection h with h1 _
    exact h1.symm
  · split at h
    · right
      injection h with h1 _
      exact h1.symm
    · exact absurd h (by simp)

/-- C5 witness: the redirect issued for `/fr/dashboard` with no
credential carries the preserved lowercase locale `fr`. -/
theorem Middleware.redirect_locale_preservation_witness :
    "/fr/signin" = "/" ++ Middleware.specLocaleOf "/fr/dashboard" ++ "/signin" ∨
    "/fr/signin" = "/" ++ Middleware.specLocaleOf "/fr/dashboard" ++ "/dashboard" :=
  Middleware.redirect_locale_preservation.2.1 "/fr/dashboard" none
    "/fr/signin" (some "/fr/dashboard") (by decide)

/-- C10: route classification is substring containment, not a
leading-segment match: a path is protected exactly when it contains
`/dashboard` or `/admin` anywhere, and an auth-entry path exactly when
it contains `/signin`, `/signup` or `/login` anywhere; concretely,
`/en/blog/admin-tips` with no credential is redirected to the signin
entry. -/
theorem Middleware.substring_route_classification :
    (∀ pathname : String,
      Middleware.isProtectedRoute pathname = true ↔
        (Middleware.includes pathname "/dashboard" = true ∨
         Middleware.includes pathname "/admin" = true)) ∧
    (∀ pathname : String,
      Middleware.isAuthRoute pathname = true ↔
        (Middleware.includes pathname "/signin" = true ∨
         Middleware.includes pathname "/signup" = true ∨
         Middleware.includes pathname "/login" = true)) ∧
    Middleware.middleware "/en/blog/admin-tips" none =
      .redirect "/en/signin" (some "/en/blog/admin-tips") := by
  refine ⟨?_, ?_, by decide⟩ <;> intro p <;>
    simp [Middleware.isProtectedRoute, Middleware.isAuthRoute,
      Middleware.PROTECTED_PATTERNS, Middleware.AUTH_ROUTES]

/-- C6 counterexample: the claim says the thrown `ApiError`'s message
is the response body's detail string whenever one is present.  For a
non-ok response whose body is the object with `detail` bound to the
(present) empty string, the code's `errorData.detail || fallback`
takes the fallback branch — the message is
`"Request failed with status 400"`, not the present detail string. -/
theorem ApiClient.apiFetch_empty_detail_counterexample :
    ApiClient.apiErrorDetail
        ⟨false, 400, some (Json.obj [("detail", Json.str "")]), none⟩ =
      some (Json.str "") ∧
    ApiClient.apiFetch
        ⟨false, 400, some (Json.obj [("detail", Json.str "")]), none⟩ "rid" =
      .apiError "Request failed with status 400" 400 (some (Json.str "")) "rid" ∧
    ("Request failed with status 400" : String) ≠ "" :=
  ⟨rfl, rfl, by decide⟩

/-- C6 (amended): every non-ok response makes `apiFetch` throw an
`ApiError` whose status equals the response status and whose message
is the body's `detail` string when present and NON-EMPTY (truthy); a
missing (or empty) detail yields the fallback
`"Request failed with status <status>"`; a non-ok response never
resolves to success.  An ok 204 returns the empty object, and any
other ok response whose body is valid JSON returns the parsed body. -/
theorem ApiClient.apiFetch_error_contract
    (resp : ApiClient.HttpResponse) (requestId : String) :
    (resp.ok = false →
      ApiClient.apiFetch resp requestId =
        .apiError (ApiClient.apiErrorMessage resp) resp.status
          (ApiClient.apiErrorDetail resp)
          (ApiClient.responseRequestId resp requestId) ∧
      (∀ body, ApiClient.apiFetch resp requestId ≠ .success body) ∧
      (∀ s : String, ApiClient.apiErrorDetail resp = some (.str s) → s ≠ "" →
        ApiClient.apiErrorMessage resp = s) ∧
      (ApiClient.apiErrorDetail resp = none →
        ApiClient.apiErrorMessage resp =
          "Request failed with status " ++ toString resp.status)) ∧
    (resp.ok = true → resp.status = 204 →
      ApiClient.apiFetch resp requestId = .success (Json.obj [])) ∧
    (resp.ok = true → resp.status ≠ 204 → ∀ j, resp.body = some j →
      ApiClient.apiFetch resp requestId = .success j) := by
  refine ⟨fun hok => ⟨?_, ?_, ?_, ?_⟩, fun hok h204 => ?_, fun hok h204 j hbody => ?_⟩
  · simp [ApiClient.apiFetch, hok]
  · intro body
    simp [ApiClient.apiFetch, hok]
  · intro s hdet hne
    unfold ApiClient.apiErrorMessage
    rw [hdet]
    simp [Json.truthy, hne, jsToString]
  · intro hdet
    unfold ApiClient.apiErrorMessage
    rw [hdet]
  · simp [ApiClient.apiFetch, hok, h204]
  · simp [ApiClient.apiFetch, hok, h204, hbody]

/-- C6 witness: a 403 response with detail `"boom"` throws an
`ApiError` whose message is that detail. -/
theorem ApiClient.apiFetch_error_contract_witness :
    ApiClient.apiFetch
        ⟨false, 403, some (Json.obj [("detail", Json.str "boom")]), none⟩ "rid" =
      .apiError
        (ApiClient.apiErrorMessage
          ⟨false, 403, some (Json.obj [("detail", Json.str "boom")]), none⟩)
        403
        (ApiClient.apiErrorDetail
          ⟨false, 403, some (Json.obj [("detail", Json.str "boom")]), none⟩)
        (ApiClient.responseRequestId
          ⟨false, 403, some (Json.obj [("detail", Json.str "boom")]), none⟩ "rid") ∧
    ApiClient.apiErrorMessage
        ⟨false, 403, some (Json.obj [("detail", Json.str "boom")]), none⟩ = "boom" :=
  ⟨((ApiClient.apiFetch_error_contract
      ⟨false, 403, some (Json.obj [("detail", Json.str "boom")]), none⟩ "rid").1 rfl).1,
   ((ApiClient.apiFetch_error_contract
      ⟨false, 403, some (Json.obj [("detail", Json.str "boom")]), none⟩ "rid").1 rfl).2.2.1
      "boom" rfl (by decide)⟩

/-- C7: `login` sends the subject identifier and secret as
form-encoded fields (`username`/`password` under content type
`application/x-www-form-urlencoded`, not JSON), and on an ok response
whose body carries an access token and the token type `"bearer"` (the
declared `AuthResponse` contract) it returns that body and stores the
returned access token via `setToken`. -/
theorem ApiClient.login_form_encoded_and_stores_token
    (apiUrl email password : String) (resp : ApiClient.HttpResponse)
    (st : ApiClient.ClientStorage) (t : String)
    (hok : resp.ok = true)
    (hbody : resp.body =
      some (Json.obj [("access_token", .str t), ("token_type", .str "bearer")])) :
    (ApiClient.loginRequest apiUrl email password).contentType =
      "application/x-www-form-urlencoded" ∧
    (ApiClient.loginRequest apiUrl email password).formFields =
      [("username", email), ("password", password)] ∧
    (ApiClient.loginRequest apiUrl email password).url =
      apiUrl ++ "/api/v1" ++ "/auth/login" ∧
    ApiClient.login resp st =
      .ok (Json.obj [("access_token", .str t), ("token_type", .str "bearer")])
        (ApiClient.setToken t st) := by
  refine ⟨rfl, rfl, rfl, ?_⟩
  simp [ApiClient.login, hok, hbody, Json.lookup, List.find?, jsToString]

/-- C7 witness: a concrete ok login response with access token
`tok123` and token type `bearer` is returned as-is and stored. -/
theorem ApiClient.login_form_encoded_and_stores_token_witness :
    ApiClient.login ⟨true, 200,
        some (Json.obj [("access_token", .str "tok123"), ("token_type", .str "bearer")]),
        none⟩
        ⟨[], none⟩ =
      .ok (Json.obj [("access_token", .str "tok123"), ("token_type", .str "bearer")])
        (ApiClient.setToken "tok123" ⟨[], none⟩) ∧
    (ApiClient.loginRequest "http://localhost:8000" "e@x.io" "pw").contentType =
      "application/x-www-form-urlencoded" :=
  ⟨(ApiClient.login_form_encoded_and_stores_token "http://localhost:8000" "e@x.io" "pw"
      ⟨true, 200,
        some (Json.obj [("access_token", .str "tok123"), ("token_type", .str "bearer")]),
        none⟩
      ⟨[], none⟩ "tok123" rfl rfl).2.2.2,
   (ApiClient.login_form_encoded_and_stores_token "http://localhost:8000" "e@x.io" "pw"
      ⟨true, 200,
        some (Json.obj [("access_token", .str "tok123"), ("token_type", .str "bearer")]),
        none⟩
      ⟨[], none⟩ "tok123" rfl rfl).1⟩
